import Mathlib

/-!
Verification of the session core (`src/core/session.c`) of the msquic fork.

The C code is shallowly embedded: machine integers become `Nat` with explicit
`% 2 ^ w` where the code truncates, C strings become `List Nat` of byte
values, the server-cache hashtable becomes a list of entries searched in
chain order, and the reference counting of `QUIC_SEC_CONFIG` objects becomes
an explicit environment mapping a configuration identifier to its count.
Locks guard each operation in the source; the embedding treats each locked
operation as one atomic step on the state.

The hash function `QuicHashSimple` lives outside this repository slice; the
spec admits any dispersal function, so the model is parametric in
`hashFn : Bytes -> Nat` applied to the hashed byte range.
-/

set_option autoImplicit false

namespace MsQuicSession

/-- A byte buffer (C string or sized byte sequence) as a list of byte values. -/
abbrev Bytes := List Nat

/-- C strlen: length of a buffer's prefix up to (excluding) the first NUL byte. -/
def cstrlen : Bytes → Nat
  | [] => 0
  | b :: rest => if b = 0 then 0 else cstrlen rest + 1

/-- Reference-count environment for security-configuration objects:
maps a configuration identifier to its number of counted references. -/
abbrev RefEnv := Nat → Nat

/-- QuicTlsSecConfigAddRef: one more counted reference on a configuration. -/
def secConfigAddRef (refs : RefEnv) (cfg : Nat) : RefEnv :=
  fun c => if c = cfg then refs c + 1 else refs c

/-- QuicTlsSecConfigRelease: one fewer counted reference on a configuration. -/
def secConfigRelease (refs : RefEnv) (cfg : Nat) : RefEnv :=
  fun c => if c = cfg then refs c - 1 else refs c

/-- One QUIC_SERVER_CACHE entry: the hash it was inserted under, the stored
identity (explicit length plus the bytes embedded after the entry), the
negotiated version, the transport parameters (an opaque value record copied
by value, modelled as a `Nat`), and the optional security configuration. -/
structure ServerCacheEntry where
  hash : Nat
  serverNameLength : Nat
  serverName : Bytes
  quicVersion : Nat
  transportParameters : Nat
  secConfig : Option Nat
deriving Repr, DecidableEq

/-- The chain-scan test of QuicSessionServerCacheLookup: same hash bucket,
then `Temp->ServerNameLength == ServerNameLength` and
`memcmp(Temp->ServerName, ServerName, ServerNameLength) == 0`
(memcmp compares exactly `ServerNameLength` bytes of each buffer). -/
def cacheEntryMatch (e : ServerCacheEntry) (serverNameLength : Nat)
    (serverName : Bytes) (hashValue : Nat) : Bool :=
  e.hash = hashValue && e.serverNameLength = serverNameLength &&
    e.serverName.take serverNameLength = serverName.take serverNameLength

/-- QuicSessionServerCacheLookup: walk the entries of the hash chain in
order and return the first whose length and bytes match exactly. -/
def QuicSessionServerCacheLookup (serverCache : List ServerCacheEntry)
    (serverNameLength : Nat) (serverName : Bytes) (hashValue : Nat) :
    Option ServerCacheEntry :=
  serverCache.find? (fun e => cacheEntryMatch e serverNameLength serverName hashValue)

/-- Replace the first element satisfying `p` by its image under `f`
(in-place update of the entry found by the chain scan). -/
def updateFirst {α : Type} (p : α → Bool) (f : α → α) : List α → List α
  | [] => []
  | x :: xs => if p x then f x :: xs else x :: updateFirst p f xs

/-- The server cache of one session: the hashtable contents (in insertion
order) together with the reference-count environment of the
security-configuration objects the entries point to. -/
structure CacheState where
  entries : List ServerCacheEntry
  refs : RefEnv

/-- QuicSessionServerCacheSetStateInternal under the exclusive lock.

If an entry with the identity exists, the version and parameters are
overwritten in place, and only when a non-null `secConfig` is supplied is
the old counted reference released and a new one installed.

Otherwise a new entry is allocated (`allocOk` models the allocator; on
failure the update is silently dropped). The allocation is made with
QUIC_ALLOC_PAGED, which does not zero memory (QuicSessionAlloc has to call
QuicZeroMemory explicitly after QUIC_ALLOC_NONPAGED), and the code assigns
`Cache->SecConfig` only when `SecConfig != NULL`; with a null `secConfig`
the field keeps the allocator garbage, modelled by `uninitSecConfig`. -/
def QuicSessionServerCacheSetStateInternal (hashFn : Bytes → Nat)
    (st : CacheState) (serverNameLength : Nat) (serverName : Bytes)
    (quicVersion : Nat) (parameters : Nat) (secConfig : Option Nat)
    (uninitSecConfig : Option Nat) (allocOk : Bool) : CacheState :=
  let hashValue := hashFn (serverName.take serverNameLength)
  match QuicSessionServerCacheLookup st.entries serverNameLength serverName hashValue with
  | some found =>
      match secConfig with
      | some cfg =>
          let refs1 :=
            match found.secConfig with
            | some old => secConfigRelease st.refs old
            | none => st.refs
          { entries :=
              updateFirst (fun e => cacheEntryMatch e serverNameLength serverName hashValue)
                (fun e => { e with quicVersion := quicVersion,
                                   transportParameters := parameters,
                                   secConfig := some cfg }) st.entries,
            refs := secConfigAddRef refs1 cfg }
      | none =>
          { entries :=
              updateFirst (fun e => cacheEntryMatch e serverNameLength serverName hashValue)
                (fun e => { e with quicVersion := quicVersion,
                                   transportParameters := parameters }) st.entries,
            refs := st.refs }
  | none =>
      if allocOk then
        { entries := st.entries ++
            [{ hash := hashValue,
               serverNameLength := serverNameLength,
               serverName := serverName.take serverNameLength,
               quicVersion := quicVersion,
               transportParameters := parameters,
               secConfig :=
                 match secConfig with
                 | some cfg => some cfg
                 | none => uninitSecConfig }],
          refs :=
            match secConfig with
            | some cfg => secConfigAddRef st.refs cfg
            | none => st.refs }
      else st

/-- QuicSessionServerCacheGetState under the shared lock: truncate
`strlen(ServerName)` to 16 bits, hash that many bytes, look the identity up,
and on the found path copy the version and parameters out by value and
produce one new counted reference to the cached configuration (null when
none is cached). Returns the out-parameters (`none` when not found, in
which case they are not written) and the updated reference environment. -/
def QuicSessionServerCacheGetState (hashFn : Bytes → Nat) (st : CacheState)
    (serverName : Bytes) : Option (Nat × Nat × Option Nat) × RefEnv :=
  let serverNameLength := cstrlen serverName % 65536
  let hashValue := hashFn (serverName.take serverNameLength)
  match QuicSessionServerCacheLookup st.entries serverNameLength serverName hashValue with
  | some cacheEntry =>
      match cacheEntry.secConfig with
      | some cfg =>
          (some (cacheEntry.quicVersion, cacheEntry.transportParameters, some cfg),
           secConfigAddRef st.refs cfg)
      | none =>
          (some (cacheEntry.quicVersion, cacheEntry.transportParameters, none), st.refs)
  | none => (none, st.refs)

/-- QuicSessionServerCacheSetState: the public entry point truncates
`strlen(ServerName)` to 16 bits and calls the internal routine. -/
def QuicSessionServerCacheSetState (hashFn : Bytes → Nat) (st : CacheState)
    (serverName : Bytes) (quicVersion : Nat) (parameters : Nat)
    (secConfig : Option Nat) (uninitSecConfig : Option Nat) (allocOk : Bool) :
    CacheState :=
  QuicSessionServerCacheSetStateInternal hashFn st (cstrlen serverName % 65536)
    serverName quicVersion parameters secConfig uninitSecConfig allocOk

example :
    (QuicSessionServerCacheGetState (fun _ => 0)
      (QuicSessionServerCacheSetState (fun _ => 0) ⟨[], fun _ => 0⟩
        [101, 120] 1 11 none none true)
      [101, 120]).1 = some (1, 11, none) := by decide

example :
    (QuicSessionServerCacheGetState (fun _ => 0) ⟨[], fun _ => 0⟩ [101]).1 = none := by
  decide

/-! ## Shutdown broadcaster (MsQuicSessionShutdown) -/

/-- QUIC_UINT62_MAX: the largest value of the protocol's 62-bit varint. -/
def QUIC_UINT62_MAX : Nat := 2 ^ 62 - 1

/-- One member connection as the broadcaster sees it: the atomic
`BackUpOperUsed` flag, the pre-reserved `BackUpOper` slot (populated with
the shutdown flags and error code when claimed), and the number of backup
operations this connection's work queue has received. -/
structure ConnShut where
  backUpOperUsed : Bool
  backUpOper : Option (Nat × Nat)
  queuedOpers : Nat
deriving Repr, DecidableEq

/-- The loop body of MsQuicSessionShutdown for one connection: the
InterlockedCompareExchange16 of `BackUpOperUsed` from 0 to 1 succeeds
exactly when the flag was 0; only then is the slot populated with the
flags and error code and queued at highest priority. -/
def shutdownVisitConn (flags errorCode : Nat) (c : ConnShut) : ConnShut :=
  if c.backUpOperUsed = false then
    { backUpOperUsed := true,
      backUpOper := some (flags, errorCode),
      queuedOpers := c.queuedOpers + 1 }
  else c

/-- The membership collection of a session, as walked by the broadcaster
under the connections lock. -/
structure SessionConns where
  connections : List ConnShut
deriving Repr, DecidableEq

/-- MsQuicSessionShutdown: return without any side effect when the error
code exceeds QUIC_UINT62_MAX, otherwise walk the membership collection and
visit every connection. -/
def MsQuicSessionShutdown (s : SessionConns) (flags errorCode : Nat) : SessionConns :=
  if QUIC_UINT62_MAX < errorCode then s
  else { connections := s.connections.map (shutdownVisitConn flags errorCode) }

/-! ## Close (MsQuicSessionClose) -/

/-- QUIC_CONNECTION_SHUTDOWN_FLAG_SILENT. Modelled from the spec: the
public header defining the flag values is not part of this repository
slice; the silent flag is the nonzero constant the close path passes. -/
def QUIC_CONNECTION_SHUTDOWN_FLAG_SILENT : Nat := 1

/-- The externally visible steps MsQuicSessionClose takes, in order. -/
inductive CloseEvent where
  | unlinkFromRegistration
  | shutdownBroadcast (flags errorCode : Nat)
  | rundownReleaseAndWait
  | sessionFree
deriving Repr, DecidableEq

/-- A session as the close path sees it: the optional owning registration,
that registration's session collection (identifiers, this session's own
among them), this session's identifier, and the member connections. -/
structure SessionObj where
  registration : Option Nat
  selfId : Nat
  regSessions : List Nat
  conns : SessionConns

/-- MsQuicSessionClose on a validated session handle: with an owning
registration, unlink the session from the registration's collection under
the registration's lock; for the ownerless default session, broadcast a
silent shutdown (error code 0) to the member connections instead. Either
way, then release-and-wait on the rundown and free the session. The event
list records the steps in program order. -/
def MsQuicSessionClose (s : SessionObj) : SessionObj × List CloseEvent :=
  match s.registration with
  | some _ =>
      ({ s with regSessions := s.regSessions.erase s.selfId },
       [CloseEvent.unlinkFromRegistration,
        CloseEvent.rundownReleaseAndWait,
        CloseEvent.sessionFree])
  | none =>
      ({ s with conns :=
          MsQuicSessionShutdown s.conns QUIC_CONNECTION_SHUTDOWN_FLAG_SILENT 0 },
       [CloseEvent.shutdownBroadcast QUIC_CONNECTION_SHUTDOWN_FLAG_SILENT 0,
        CloseEvent.rundownReleaseAndWait,
        CloseEvent.sessionFree])

/-! ## Open (MsQuicSessionOpen) -/

/-- The status values the open path can produce. -/
inductive QuicStatus where
  | success
  | invalidParameter
  | outOfMemory
deriving Repr, DecidableEq

/-- The `Type` tag of a QUIC_HANDLE. -/
inductive HandleType where
  | registration
  | session
  | other
deriving Repr, DecidableEq

/-- Result of MsQuicSessionOpen: the status, the registration's session
collection afterwards, and the handle written to `*NewSession` (none when
the call fails and the out-parameter is not written). -/
structure OpenResult where
  status : QuicStatus
  regSessions : List Nat
  newSession : Option Nat
deriving Repr, DecidableEq

/-- MsQuicSessionOpen: `RegistrationContext == NULL`, a handle whose tag is
not QUIC_HANDLE_TYPE_REGISTRATION, or `NewSession == NULL` fail with
QUIC_STATUS_INVALID_PARAMETER before anything is allocated or linked;
QuicSessionAlloc failing (modelled by `allocOk = false`) yields
QUIC_STATUS_OUT_OF_MEMORY; otherwise the fresh session is inserted at the
tail of the registration's session collection under the registration's
lock and returned through `*NewSession`. -/
def MsQuicSessionOpen (registrationContext : Option HandleType)
    (newSessionPtr : Bool) (allocOk : Bool) (regSessions : List Nat)
    (newSessionId : Nat) : OpenResult :=
  if registrationContext ≠ some HandleType.registration ∨ newSessionPtr = false then
    { status := QuicStatus.invalidParameter,
      regSessions := regSessions,
      newSession := none }
  else if allocOk = false then
    { status := QuicStatus.outOfMemory,
      regSessions := regSessions,
      newSession := none }
  else
    { status := QuicStatus.success,
      regSessions := regSessions ++ [newSessionId],
      newSession := some newSessionId }

/-! ## Membership registry and draining guard
(QuicSessionRegisterConnection / QuicSessionUnregisterConnection)

QuicRundownAcquire, QuicRundownRelease and the rundown's starting state are
outside this repository slice. Modelled from the spec's Draining Guard:
the count starts at 1 (the session's own token) with draining off; acquire
increments the count and succeeds unless draining has started; release
decrements the count. -/

/-- The session state the registry operations touch: the membership
collection (connection identifiers in insertion order), the draining-guard
count and flag, and each connection's `Session` back-reference (true when
the connection's back-reference points at this session). -/
structure SessionMembers where
  connections : List Nat
  rundownCount : Nat
  rundownDraining : Bool
  connSession : Nat → Bool

/-- QuicSessionUnregisterConnection: a no-op when the connection has no
session; otherwise clear the back-reference, remove the connection from
the membership collection under the connections lock, and release the
connection's draining-guard token. -/
def QuicSessionUnregisterConnection (s : SessionMembers) (c : Nat) : SessionMembers :=
  if s.connSession c = false then s
  else
    { connections := s.connections.erase c,
      rundownCount := s.rundownCount - 1,
      rundownDraining := s.rundownDraining,
      connSession := fun x => if x = c then false else s.connSession x }

/-- QuicSessionRegisterConnection: first unregister from any prior session,
set the back-reference, acquire a draining-guard token (the source asserts
success and inserts regardless), and append the connection to the
membership collection under the connections lock. -/
def QuicSessionRegisterConnection (s : SessionMembers) (c : Nat) : SessionMembers :=
  let s1 := QuicSessionUnregisterConnection s c
  { connections := s1.connections ++ [c],
    rundownCount := if s1.rundownDraining then s1.rundownCount else s1.rundownCount + 1,
    rundownDraining := s1.rundownDraining,
    connSession := fun x => if x = c then true else s1.connSession x }

/-- A call into the registry. -/
inductive SessionOp where
  | register (c : Nat)
  | unregister (c : Nat)

/-- Run one registry call. -/
def applyOp (s : SessionMembers) : SessionOp → SessionMembers
  | SessionOp.register c => QuicSessionRegisterConnection s c
  | SessionOp.unregister c => QuicSessionUnregisterConnection s c

/-- Run a sequence of registry calls. -/
def applyOps (s : SessionMembers) : List SessionOp → SessionMembers
  | [] => s
  | op :: rest => applyOps (applyOp s op) rest

/-- A sequence is valid when every registration targets a connection not
currently registered here and every unregistration targets one that is
(the caller discipline the spec assumes: a connection's own calls do not
overlap, and distinct connections are distinct). -/
def validOps (s : SessionMembers) : List SessionOp → Bool
  | [] => true
  | SessionOp.register c :: rest =>
      !s.connSession c && validOps (applyOp s (SessionOp.register c)) rest
  | SessionOp.unregister c :: rest =>
      s.connSession c && validOps (applyOp s (SessionOp.unregister c)) rest

/-- Number of register calls in a sequence. -/
def regCount : List SessionOp → Nat
  | [] => 0
  | SessionOp.register _ :: rest => regCount rest + 1
  | SessionOp.unregister _ :: rest => regCount rest

/-- Number of unregister calls in a sequence. -/
def unregCount : List SessionOp → Nat
  | [] => 0
  | SessionOp.register _ :: rest => unregCount rest
  | SessionOp.unregister _ :: rest => unregCount rest + 1

/-- A session as QuicSessionAlloc leaves it: empty membership, rundown
count 1 (the session's own alive token), draining off, no connection
pointing here. -/
def initialSession : SessionMembers :=
  { connections := [],
    rundownCount := 1,
    rundownDraining := false,
    connSession := fun _ => false }

/-! ## Shared lemmas -/

/-- Per-connection invariant of the broadcaster: the work queue has
received at most one backup operation, and none while the slot flag is
still 0. -/
def connShutInv (c : ConnShut) : Prop :=
  c.queuedOpers ≤ if c.backUpOperUsed then 1 else 0

lemma connShutInv_visit (flags errorCode : Nat) (c : ConnShut)
    (h : connShutInv c) : connShutInv (shutdownVisitConn flags errorCode c) := by
  unfold connShutInv shutdownVisitConn at *
  by_cases hb : c.backUpOperUsed = false
  · simp [hb] at h ⊢
    omega
  · simp [hb] at h ⊢
    simpa [eq_true_of_ne_false hb] using h

lemma shutdown_foldl_inv (calls : List (Nat × Nat)) (s : SessionConns)
    (h : ∀ c ∈ s.connections, connShutInv c) :
    ∀ c ∈ (calls.foldl
        (fun t fe => MsQuicSessionShutdown t fe.1 fe.2) s).connections,
      connShutInv c := by
  induction calls generalizing s with
  | nil => exact h
  | cons fe rest ih =>
      refine ih (MsQuicSessionShutdown s fe.1 fe.2) ?_
      intro c hc
      unfold MsQuicSessionShutdown at hc
      by_cases hlt : QUIC_UINT62_MAX < fe.2
      · rw [if_pos hlt] at hc
        exact h c hc
      · rw [if_neg hlt] at hc
        simp only [List.mem_map] at hc
        obtain ⟨c0, hc0, rfl⟩ := hc
        exact connShutInv_visit _ _ _ (h c0 hc0)

/-! ## Claims about the shutdown broadcaster -/

/-- C1: starting from a session whose member connections all have the
single-shot slot unused and nothing queued, any sequence of shutdown calls
on the session leaves every member connection with at most one queued
shutdown request, and a connection whose slot flag is still unused has
received none — the slot is populated and queued only on the successful
compare-and-set from 0 to 1. -/
theorem claim_C1_shutdown_at_most_one_pending (calls : List (Nat × Nat)) (n : Nat) :
    ∀ c ∈ (calls.foldl (fun t fe => MsQuicSessionShutdown t fe.1 fe.2)
        ⟨List.replicate n ⟨false, none, 0⟩⟩).connections,
      c.queuedOpers ≤ 1 ∧ (c.backUpOperUsed = false → c.queuedOpers = 0) := by
  intro c hc
  have hinv : connShutInv c := by
    refine shutdown_foldl_inv calls ⟨List.replicate n ⟨false, none, 0⟩⟩ ?_ c hc
    intro c0 hc0
    have := List.eq_of_mem_replicate hc0
    subst this
    simp [connShutInv]
  unfold connShutInv at hinv
  constructor
  · rcases hb : c.backUpOperUsed with _ | _ <;> simp [hb] at hinv <;> omega
  · intro hb
    simpa [hb] using hinv

/-- C1 witness: two shutdown calls on a one-connection session queue
exactly one request. -/
theorem claim_C1_shutdown_at_most_one_pending_witness :
    (⟨true, some (0, 0), 1⟩ : ConnShut) ∈
      ([((0 : Nat), (0 : Nat)), (0, 0)].foldl
        (fun t fe => MsQuicSessionShutdown t fe.1 fe.2)
        ⟨List.replicate 1 ⟨false, none, 0⟩⟩).connections ∧
    (1 : Nat) ≤ 1 := by
  refine ⟨by decide, ?_⟩
  exact (claim_C1_shutdown_at_most_one_pending [(0, 0), (0, 0)] 1
    ⟨true, some (0, 0), 1⟩ (by decide)).1

/-- C7: an error code beyond the 62-bit range makes shutdown return with
no side effect at all — the session state, every connection's slot and
every queue are exactly as before. -/
theorem claim_C7_shutdown_rejects_large_error_code (s : SessionConns)
    (flags errorCode : Nat) (h : QUIC_UINT62_MAX < errorCode) :
    MsQuicSessionShutdown s flags errorCode = s := by
  unfold MsQuicSessionShutdown
  rw [if_pos h]

/-- C7 witness: error code 2^62 is rejected and the session is untouched. -/
theorem claim_C7_shutdown_rejects_large_error_code_witness :
    QUIC_UINT62_MAX < 2 ^ 62 ∧
    MsQuicSessionShutdown ⟨[⟨false, none, 0⟩]⟩ 0 (2 ^ 62) =
      ⟨[⟨false, none, 0⟩]⟩ := by
  refine ⟨by decide, ?_⟩
  exact claim_C7_shutdown_rejects_large_error_code _ 0 (2 ^ 62) (by decide)

/-! ## Claims about close and open -/

/-- C8: closing the ownerless default session broadcasts a silent shutdown
(silent flag, error code 0) to the member connections and only then
releases-and-waits on the draining guard; closing a session with an owning
registration unlinks it from the registration's session collection and
performs no broadcast, leaving the member connections untouched. -/
theorem claim_C8_close_broadcast_or_unlink (s : SessionObj) :
    (s.registration = none →
      (MsQuicSessionClose s).2 =
        [CloseEvent.shutdownBroadcast QUIC_CONNECTION_SHUTDOWN_FLAG_SILENT 0,
         CloseEvent.rundownReleaseAndWait, CloseEvent.sessionFree] ∧
      (MsQuicSessionClose s).1.conns =
        MsQuicSessionShutdown s.conns QUIC_CONNECTION_SHUTDOWN_FLAG_SILENT 0 ∧
      (MsQuicSessionClose s).1.regSessions = s.regSessions) ∧
    (∀ r, s.registration = some r →
      (MsQuicSessionClose s).2 =
        [CloseEvent.unlinkFromRegistration,
         CloseEvent.rundownReleaseAndWait, CloseEvent.sessionFree] ∧
      (MsQuicSessionClose s).1.regSessions = s.regSessions.erase s.selfId ∧
      (MsQuicSessionClose s).1.conns = s.conns) := by
  obtain ⟨reg, sid, rs, cs⟩ := s
  cases reg with
  | none =>
      refine ⟨fun _ => ⟨rfl, rfl, rfl⟩, fun r hr => ?_⟩
      simp at hr
  | some r0 =>
      refine ⟨fun h => ?_, fun r _ => ⟨rfl, rfl, rfl⟩⟩
      simp at h

/-- C8 witness: one ownerless and one owned session, closed. -/
theorem claim_C8_close_broadcast_or_unlink_witness :
    (MsQuicSessionClose ⟨none, 5, [], ⟨[]⟩⟩).2 =
      [CloseEvent.shutdownBroadcast QUIC_CONNECTION_SHUTDOWN_FLAG_SILENT 0,
       CloseEvent.rundownReleaseAndWait, CloseEvent.sessionFree] ∧
    (MsQuicSessionClose ⟨some 3, 5, [5, 9], ⟨[]⟩⟩).1.regSessions =
      ([5, 9] : List Nat).erase 5 := by
  exact ⟨((claim_C8_close_broadcast_or_unlink ⟨none, 5, [], ⟨[]⟩⟩).1 rfl).1,
    ((claim_C8_close_broadcast_or_unlink ⟨some 3, 5, [5, 9], ⟨[]⟩⟩).2 3 rfl).2.1⟩

/-- C9: a null registration handle or one whose type tag is not the
registration tag (or a null out-pointer) makes open fail with the
invalid-argument status and no side effect on the registration's session
collection; a failing allocation yields the out-of-memory status; and
otherwise open succeeds, returning a new session handle linked at the tail
of the registration's session collection. -/
theorem claim_C9_open_error_paths (ctx : Option HandleType)
    (ptr alloc : Bool) (sessions : List Nat) (newId : Nat) :
    (ctx ≠ some HandleType.registration →
      MsQuicSessionOpen ctx ptr alloc sessions newId =
        ⟨QuicStatus.invalidParameter, sessions, none⟩) ∧
    (ptr = true → alloc = false →
      MsQuicSessionOpen (some HandleType.registration) ptr alloc sessions newId =
        ⟨QuicStatus.outOfMemory, sessions, none⟩) ∧
    (ptr = true → alloc = true →
      MsQuicSessionOpen (some HandleType.registration) ptr alloc sessions newId =
        ⟨QuicStatus.success, sessions ++ [newId], some newId⟩) := by
  refine ⟨fun h => ?_, fun hp ha => ?_, fun hp ha => ?_⟩
  · unfold MsQuicSessionOpen
    rw [if_pos (Or.inl h)]
  · unfold MsQuicSessionOpen
    rw [if_neg (by simp [hp]), if_pos ha]
  · unfold MsQuicSessionOpen
    rw [if_neg (by simp [hp]), if_neg (by simp [ha])]

/-- C9 witness: a session-typed handle is rejected untouched, a failed
allocation reports out-of-memory, and a successful open links the new
session. -/
theorem claim_C9_open_error_paths_witness :
    MsQuicSessionOpen (some HandleType.session) true true [4] 7 =
      ⟨QuicStatus.invalidParameter, [4], none⟩ ∧
    MsQuicSessionOpen (some HandleType.registration) true false [4] 7 =
      ⟨QuicStatus.outOfMemory, [4], none⟩ ∧
    MsQuicSessionOpen (some HandleType.registration) true true [4] 7 =
      ⟨QuicStatus.success, [4, 7], some 7⟩ := by
  exact ⟨(claim_C9_open_error_paths (some HandleType.session) true true [4] 7).1
      (by decide),
    (claim_C9_open_error_paths (some HandleType.registration) true false [4] 7).2.1
      rfl rfl,
    (claim_C9_open_error_paths (some HandleType.registration) true true [4] 7).2.2
      rfl rfl⟩

/-- C6: with a null security configuration on a fresh identity, the
fresh-entry path of the cache assigns every field except `SecConfig`, which
keeps whatever the non-zeroing allocator left there (modelled as garbage
value 7); the subsequent get for the same identity then returns that
garbage reference instead of the null the spec promises. -/
theorem claim_C6_uninitialized_secConfig_observed :
    (QuicSessionServerCacheGetState (fun _ => 0)
      (QuicSessionServerCacheSetState (fun _ => 0) ⟨[], fun _ => 0⟩
        [101, 120] 1 11 none (some 7) true)
      [101, 120]).1 = some (1, 11, some 7) := by decide

/-! ## Claims about the resumption cache -/

lemma length_updateFirst {α : Type} (p : α → Bool) (f : α → α) (l : List α) :
    (updateFirst p f l).length = l.length := by
  induction l with
  | nil => rfl
  | cons x xs ih =>
      unfold updateFirst
      by_cases hx : p x
      · simp [hx]
      · simp [hx, ih]

lemma find?_updateFirst {α : Type} (p : α → Bool) (f : α → α) (l : List α)
    (hpf : ∀ x, p x = true → p (f x) = true) :
    List.find? p (updateFirst p f l) = (List.find? p l).map f := by
  induction l with
  | nil => rfl
  | cons x xs ih =>
      unfold updateFirst
      by_cases hx : p x
      · rw [if_pos hx, List.find?_cons_of_pos _ (hpf x hx),
          List.find?_cons_of_pos _ hx]
        rfl
      · rw [if_neg hx, List.find?_cons_of_neg _ (by simpa using hx),
          List.find?_cons_of_neg _ (by simpa using hx), ih]

lemma find?_append_of_none {α : Type} (p : α → Bool) (l1 l2 : List α)
    (h : List.find? p l1 = none) :
    List.find? p (l1 ++ l2) = List.find? p l2 := by
  induction l1 with
  | nil => rfl
  | cons x xs ih =>
      rw [List.find?_cons] at h
      by_cases hx : p x
      · simp [hx] at h
      · rw [List.cons_append, List.find?_cons_of_neg _ (by simpa using hx)]
        exact ih (by simpa [hx] using h)

/-- Record updates that keep the identity fields leave the chain-scan
test unchanged. -/
lemma cacheEntryMatch_update (e : ServerCacheEntry) (L : Nat) (n : Bytes)
    (hv v p : Nat) (cfg : Option Nat) :
    cacheEntryMatch
      { e with quicVersion := v, transportParameters := p,
               secConfig := (match cfg with | some c => some c | none => e.secConfig) }
      L n hv = cacheEntryMatch e L n hv := rfl

/-- The entry the fresh-allocation path builds matches its own identity. -/
lemma cacheEntryMatch_new (L : Nat) (n : Bytes) (hv v p : Nat)
    (cfg : Option Nat) :
    cacheEntryMatch ⟨hv, L, n.take L, v, p, cfg⟩ L n hv = true := by
  unfold cacheEntryMatch
  simp [List.take_take]

/-- The entry list after a set that found an existing entry: the first
matching entry is overwritten in place. -/
lemma setStateInternal_entries_of_some (hashFn : Bytes → Nat) (st : CacheState)
    (L : Nat) (name : Bytes) (v p : Nat) (cfg uninit : Option Nat)
    (allocOk : Bool) (found : ServerCacheEntry)
    (h : QuicSessionServerCacheLookup st.entries L name (hashFn (name.take L)) =
      some found) :
    (QuicSessionServerCacheSetStateInternal hashFn st L name v p cfg uninit
        allocOk).entries =
      updateFirst (fun e => cacheEntryMatch e L name (hashFn (name.take L)))
        (fun e => { e with
            quicVersion := v,
            transportParameters := p,
            secConfig := (match cfg with
                          | some c => some c
                          | none => e.secConfig) })
        st.entries := by
  simp only [QuicSessionServerCacheSetStateInternal]
  rw [h]
  rcases cfg with _ | c <;> rfl

/-- The entry list after a set that found nothing and allocated: the new
entry (identity bytes copied into the trailing storage) is appended. -/
lemma setStateInternal_entries_of_none (hashFn : Bytes → Nat) (st : CacheState)
    (L : Nat) (name : Bytes) (v p : Nat) (cfg uninit : Option Nat)
    (h : QuicSessionServerCacheLookup st.entries L name (hashFn (name.take L)) =
      none) :
    (QuicSessionServerCacheSetStateInternal hashFn st L name v p cfg uninit
        true).entries =
      st.entries ++
        [⟨hashFn (name.take L), L, name.take L, v, p,
          (match cfg with | some c => some c | none => uninit)⟩] := by
  simp only [QuicSessionServerCacheSetStateInternal]
  rw [h]
  rcases cfg with _ | c <;> rfl

/-- The out-parameters of a get are the projection of the chain-scan
result. -/
lemma getState_fst (hashFn : Bytes → Nat) (st : CacheState) (name : Bytes) :
    (QuicSessionServerCacheGetState hashFn st name).1 =
      (QuicSessionServerCacheLookup st.entries (cstrlen name % 65536) name
        (hashFn (name.take (cstrlen name % 65536)))).map
        (fun e => (e.quicVersion, e.transportParameters, e.secConfig)) := by
  simp only [QuicSessionServerCacheGetState]
  rcases h : QuicSessionServerCacheLookup st.entries (cstrlen name % 65536) name
      (hashFn (name.take (cstrlen name % 65536))) with _ | e
  · rfl
  · rcases hsec : e.secConfig with _ | c <;> simp [hsec]

/-- The reference environment after a get: bumped only on the found path
and only for a cached non-null configuration. -/
lemma getState_snd (hashFn : Bytes → Nat) (st : CacheState) (name : Bytes) :
    (QuicSessionServerCacheGetState hashFn st name).2 =
      match QuicSessionServerCacheLookup st.entries (cstrlen name % 65536) name
          (hashFn (name.take (cstrlen name % 65536))) with
      | some e =>
          match e.secConfig with
          | some cfg => secConfigAddRef st.refs cfg
          | none => st.refs
      | none => st.refs := by
  simp only [QuicSessionServerCacheGetState]
  rcases h : QuicSessionServerCacheLookup st.entries (cstrlen name % 65536) name
      (hashFn (name.take (cstrlen name % 65536))) with _ | e
  · rfl
  · rcases hsec : e.secConfig with _ | c <;> simp [hsec]

/-- C3: a cache set followed by a get with the same identity returns
exactly the version and parameters last set, and the set overwrites in
place — the entry count grows only when no entry for the identity existed,
never producing a duplicate. -/
theorem claim_C3_set_then_get_last_write_wins (hashFn : Bytes → Nat)
    (st : CacheState) (name : Bytes) (v p : Nat) (cfg uninit : Option Nat) :
    ((QuicSessionServerCacheGetState hashFn
        (QuicSessionServerCacheSetState hashFn st name v p cfg uninit true)
        name).1.map (fun t => (t.1, t.2.1))) = some (v, p) ∧
    (QuicSessionServerCacheSetState hashFn st name v p cfg uninit true).entries.length =
      (if (QuicSessionServerCacheLookup st.entries (cstrlen name % 65536) name
            (hashFn (name.take (cstrlen name % 65536)))).isSome
       then st.entries.length else st.entries.length + 1) := by
  rw [show QuicSessionServerCacheSetState hashFn st name v p cfg uninit true =
        QuicSessionServerCacheSetStateInternal hashFn st (cstrlen name % 65536)
          name v p cfg uninit true from rfl,
      getState_fst]
  rcases hlook : QuicSessionServerCacheLookup st.entries (cstrlen name % 65536)
      name (hashFn (name.take (cstrlen name % 65536))) with _ | found
  · rw [setStateInternal_entries_of_none hashFn st _ name v p cfg uninit hlook]
    have hlooknew : QuicSessionServerCacheLookup
        (st.entries ++
          [⟨hashFn (name.take (cstrlen name % 65536)), cstrlen name % 65536,
            name.take (cstrlen name % 65536), v, p,
            (match cfg with | some c => some c | none => uninit)⟩])
        (cstrlen name % 65536) name
        (hashFn (name.take (cstrlen name % 65536))) =
        some ⟨hashFn (name.take (cstrlen name % 65536)), cstrlen name % 65536,
            name.take (cstrlen name % 65536), v, p,
            (match cfg with | some c => some c | none => uninit)⟩ := by
      unfold QuicSessionServerCacheLookup at hlook ⊢
      rw [find?_append_of_none _ _ _ hlook]
      exact List.find?_cons_of_pos _ (cacheEntryMatch_new _ _ _ _ _ _)
    rw [hlooknew]
    exact ⟨rfl, by simp [hlook]⟩
  · rw [setStateInternal_entries_of_some hashFn st _ name v p cfg uninit true
        found hlook]
    have hup : QuicSessionServerCacheLookup
        (updateFirst
          (fun e => cacheEntryMatch e (cstrlen name % 65536) name
            (hashFn (name.take (cstrlen name % 65536))))
          (fun e => { e with
              quicVersion := v,
              transportParameters := p,
              secConfig := (match cfg with
                            | some c => some c
                            | none => e.secConfig) })
          st.entries)
        (cstrlen name % 65536) name
        (hashFn (name.take (cstrlen name % 65536))) =
        some { found with
               quicVersion := v,
               transportParameters := p,
               secConfig := (match cfg with
                             | some c => some c
                             | none => found.secConfig) } := by
      unfold QuicSessionServerCacheLookup at hlook ⊢
      rw [find?_updateFirst _ _ _
        (fun x hx => by rw [cacheEntryMatch_update]; exact hx), hlook]
      rfl
    rw [hup]
    refine ⟨rfl, ?_⟩
    rw [length_updateFirst]
    simp [hlook]

/-- An entry storing a different identity (as a byte sequence) never
matches, whatever the hash values are. -/
lemma cacheEntryMatch_ne (x y : Bytes) (hxy : x ≠ y) (hx hv v p : Nat)
    (u : Option Nat) :
    cacheEntryMatch ⟨hx, x.length, x, v, p, u⟩ y.length y hv = false := by
  unfold cacheEntryMatch
  by_cases hlen : x.length = y.length
  · have hxt : x.take y.length = x := by rw [← hlen]; exact List.take_length x
    have hyt : y.take y.length = y := List.take_length y
    simp [hxt, hyt, hxy]
  · simp [hlen]

/-- An entry storing exactly the looked-up identity matches. -/
lemma cacheEntryMatch_self (n : Bytes) (hv v p : Nat) (u : Option Nat) :
    cacheEntryMatch ⟨hv, n.length, n, v, p, u⟩ n.length n hv = true := by
  unfold cacheEntryMatch
  simp [List.take_length]

/-- Setting an identity into the empty cache creates exactly its entry. -/
lemma setState_fresh_entry (hashFn : Bytes → Nat) (refs0 : RefEnv)
    (a : Bytes) (va pa : Nat) (u1 : Option Nat) :
    (QuicSessionServerCacheSetStateInternal hashFn ⟨[], refs0⟩
        a.length a va pa none u1 true).entries =
      [⟨hashFn a, a.length, a, va, pa, u1⟩] := by
  rw [setStateInternal_entries_of_none hashFn ⟨[], refs0⟩ a.length a va pa
      none u1 rfl]
  simp [List.take_length]

/-- C4: cache identity equality is exact length-and-bytes equality, and
two distinct identities never interfere even when their hash values
collide (any hash function, in particular a constant one): setting the
first leaves lookups of the second not-found, and once both are set each
lookup returns its own identity's value. -/
theorem claim_C4_colliding_identities_do_not_interfere (hashFn : Bytes → Nat)
    (a b : Bytes) (hab : a ≠ b) (va pa vb pb : Nat) (u1 u2 : Option Nat)
    (refs0 : RefEnv) :
    (∀ (e : ServerCacheEntry) (n : Bytes),
      e.serverName.length = e.serverNameLength →
      e.hash = hashFn n →
      (cacheEntryMatch e n.length n (hashFn n) = true ↔
        (e.serverNameLength = n.length ∧ e.serverName = n))) ∧
    (QuicSessionServerCacheLookup
        (QuicSessionServerCacheSetStateInternal hashFn ⟨[], refs0⟩
          a.length a va pa none u1 true).entries
        b.length b (hashFn b) = none) ∧
    ((QuicSessionServerCacheLookup
        (QuicSessionServerCacheSetStateInternal hashFn
          (QuicSessionServerCacheSetStateInternal hashFn ⟨[], refs0⟩
            a.length a va pa none u1 true)
          b.length b vb pb none u2 true).entries
        b.length b (hashFn b)).map
          (fun e => (e.quicVersion, e.transportParameters)) = some (vb, pb)) ∧
    ((QuicSessionServerCacheLookup
        (QuicSessionServerCacheSetStateInternal hashFn
          (QuicSessionServerCacheSetStateInternal hashFn ⟨[], refs0⟩
            a.length a va pa none u1 true)
          b.length b vb pb none u2 true).entries
        a.length a (hashFn a)).map
          (fun e => (e.quicVersion, e.transportParameters)) = some (va, pa)) := by
  have hst1 := setState_fresh_entry hashFn refs0 a va pa u1
  have hlookb :
      QuicSessionServerCacheLookup
        (QuicSessionServerCacheSetStateInternal hashFn ⟨[], refs0⟩
          a.length a va pa none u1 true).entries
        b.length b (hashFn b) = none := by
    rw [hst1]
    unfold QuicSessionServerCacheLookup
    rw [List.find?_cons_of_neg _ (by simp [cacheEntryMatch_ne a b hab])]
    rfl
  have hst2 :
      (QuicSessionServerCacheSetStateInternal hashFn
          (QuicSessionServerCacheSetStateInternal hashFn ⟨[], refs0⟩
            a.length a va pa none u1 true)
          b.length b vb pb none u2 true).entries =
        [⟨hashFn a, a.length, a, va, pa, u1⟩,
         ⟨hashFn b, b.length, b, vb, pb, u2⟩] := by
    rw [setStateInternal_entries_of_none hashFn _ b.length b vb pb none u2
        (by rw [List.take_length]; exact hlookb)]
    rw [hst1]
    simp [List.take_length]
  refine ⟨?_, hlookb, ?_, ?_⟩
  · intro e n hlen hhash
    unfold cacheEntryMatch
    constructor
    · intro h
      simp only [Bool.and_eq_true, decide_eq_true_eq] at h
      obtain ⟨⟨-, h2⟩, h3⟩ := h
      refine ⟨h2, ?_⟩
      rw [show e.serverName.take n.length = e.serverName by
            rw [← h2, ← hlen]; exact List.take_length e.serverName,
          List.take_length] at h3
      exact h3
    · rintro ⟨h2, h3⟩
      simp only [Bool.and_eq_true, decide_eq_true_eq]
      exact ⟨⟨hhash, h2⟩, by rw [h3]⟩
  · rw [hst2]
    unfold QuicSessionServerCacheLookup
    rw [List.find?_cons_of_neg _ (by simp [cacheEntryMatch_ne a b hab]),
      List.find?_cons_of_pos]
    · rfl
    · exact cacheEntryMatch_self b (hashFn b) vb pb u2
  · rw [hst2]
    unfold QuicSessionServerCacheLookup
    rw [List.find?_cons_of_pos]
    · rfl
    · exact cacheEntryMatch_self a (hashFn a) va pa u1


/-- C4 witness: identities with one byte of difference under the constant
(everywhere-colliding) hash function. -/
theorem claim_C4_colliding_identities_do_not_interfere_witness :
    (([1] : Bytes) ≠ [2]) ∧
    QuicSessionServerCacheLookup
      (QuicSessionServerCacheSetStateInternal (fun _ => 0) ⟨[], fun _ => 0⟩
        ([1] : Bytes).length [1] 10 20 none none true).entries
      ([2] : Bytes).length [2] ((fun (_ : Bytes) => 0) [2]) = none := by
  refine ⟨by decide, ?_⟩
  exact (claim_C4_colliding_identities_do_not_interfere (fun _ => 0) [1] [2]
    (by decide) 10 20 30 40 none none (fun _ => 0)).2.1

/-- C5: a get reports found exactly when an entry with the exact identity
is in the cache. On the found path the out-parameters are the entry's
version, parameters and configuration, and exactly one new counted
reference is produced — the cached configuration's count rises by one and
no other count moves — unless the cached configuration is null, in which
case no reference is taken. On the not-found path no reference is
acquired or leaked: the whole environment is unchanged. -/
theorem claim_C5_get_state_reference_discipline (hashFn : Bytes → Nat)
    (st : CacheState) (name : Bytes) :
    ((QuicSessionServerCacheGetState hashFn st name).1.isSome ↔
      ∃ e ∈ st.entries,
        cacheEntryMatch e (cstrlen name % 65536) name
          (hashFn (name.take (cstrlen name % 65536))) = true) ∧
    (∀ e, QuicSessionServerCacheLookup st.entries (cstrlen name % 65536) name
          (hashFn (name.take (cstrlen name % 65536))) = some e →
      (QuicSessionServerCacheGetState hashFn st name).1 =
          some (e.quicVersion, e.transportParameters, e.secConfig) ∧
      (∀ cfg, e.secConfig = some cfg →
        ((QuicSessionServerCacheGetState hashFn st name).2 cfg =
            st.refs cfg + 1 ∧
         ∀ c, c ≠ cfg →
           (QuicSessionServerCacheGetState hashFn st name).2 c = st.refs c)) ∧
      (e.secConfig = none →
        (QuicSessionServerCacheGetState hashFn st name).2 = st.refs)) ∧
    (QuicSessionServerCacheLookup st.entries (cstrlen name % 65536) name
        (hashFn (name.take (cstrlen name % 65536))) = none →
      (QuicSessionServerCacheGetState hashFn st name).1 = none ∧
      (QuicSessionServerCacheGetState hashFn st name).2 = st.refs) := by
  have hfst := getState_fst hashFn st name
  have hsnd := getState_snd hashFn st name
  refine ⟨?_, ?_, ?_⟩
  · rw [hfst, Option.isSome_map']
    unfold QuicSessionServerCacheLookup
    rw [List.find?_isSome]
  · intro e he
    have hsnd2 : (QuicSessionServerCacheGetState hashFn st name).2 =
        match e.secConfig with
        | some cfg => secConfigAddRef st.refs cfg
        | none => st.refs := by
      rw [hsnd, he]
    refine ⟨by rw [hfst, he]; rfl, ?_, ?_⟩
    · intro cfg hcfg
      rw [hsnd2, hcfg]
      constructor
      · simp [secConfigAddRef]
      · intro c hc
        simp [secConfigAddRef, hc]
    · intro hnone
      rw [hsnd2, hnone]
  · intro h
    rw [hfst, hsnd, h]
    exact ⟨rfl, rfl⟩

/-- C5 witness: a one-entry cache holding configuration 5; the get bumps
that configuration's count from 0 to 1. -/
theorem claim_C5_get_state_reference_discipline_witness :
    QuicSessionServerCacheLookup
      (⟨[⟨0, 1, [7], 3, 4, some 5⟩], fun _ => 0⟩ : CacheState).entries
      (cstrlen [7] % 65536) [7]
      ((fun (_ : Bytes) => 0) (List.take (cstrlen [7] % 65536) [7])) =
      some ⟨0, 1, [7], 3, 4, some 5⟩ ∧
    (QuicSessionServerCacheGetState (fun _ => 0)
      ⟨[⟨0, 1, [7], 3, 4, some 5⟩], fun _ => 0⟩ [7]).2 5 = 0 + 1 := by
  refine ⟨by decide, ?_⟩
  exact (((claim_C5_get_state_reference_discipline (fun _ => 0)
    ⟨[⟨0, 1, [7], 3, 4, some 5⟩], fun _ => 0⟩ [7]).2.1
    ⟨0, 1, [7], 3, 4, some 5⟩ (by decide)).2.1 5 rfl).1

/-- C10: both public cache operations use only the identity made of the
first `strlen(ServerName) mod 2^16` bytes of the name: a second name whose
NUL-terminated length is the first name's length reduced modulo 2^16 and
whose bytes agree on that prefix drives get and set to identical results
on every cache state. -/
theorem claim_C10_identity_is_strlen_mod_65536_truncation (hashFn : Bytes → Nat)
    (st : CacheState) (name1 name2 : Bytes)
    (hlen : cstrlen name2 = cstrlen name1 % 65536)
    (hbytes : name2.take (cstrlen name1 % 65536) =
      name1.take (cstrlen name1 % 65536)) :
    QuicSessionServerCacheGetState hashFn st name1 =
      QuicSessionServerCacheGetState hashFn st name2 ∧
    ∀ v p cfg uninit allocOk,
      QuicSessionServerCacheSetState hashFn st name1 v p cfg uninit allocOk =
        QuicSessionServerCacheSetState hashFn st name2 v p cfg uninit allocOk := by
  have hmod : cstrlen name2 % 65536 = cstrlen name1 % 65536 := by
    rw [hlen]
    exact Nat.mod_mod_of_dvd _ dvd_rfl
  have htake : name2.take (cstrlen name2 % 65536) =
      name1.take (cstrlen name1 % 65536) := by
    rw [hmod, hbytes]
  have hlookup : ∀ (entries : List ServerCacheEntry) (L : Nat) (hv : Nat),
      name1.take L = name2.take L →
      QuicSessionServerCacheLookup entries L name1 hv =
        QuicSessionServerCacheLookup entries L name2 hv := by
    intro entries L hv h
    unfold QuicSessionServerCacheLookup cacheEntryMatch
    congr 1
    funext e
    rw [h]
  constructor
  · simp only [QuicSessionServerCacheGetState]
    rw [hmod, hbytes,
      ← hlookup st.entries (cstrlen name1 % 65536)
        (hashFn (name1.take (cstrlen name1 % 65536))) hbytes.symm]
  · intro v p cfg uninit allocOk
    simp only [QuicSessionServerCacheSetState,
      QuicSessionServerCacheSetStateInternal]
    rw [hmod, hbytes,
      ← hlookup st.entries (cstrlen name1 % 65536)
        (hashFn (name1.take (cstrlen name1 % 65536))) hbytes.symm]
    have hpred : (fun e => cacheEntryMatch e (cstrlen name1 % 65536) name2
        (hashFn (List.take (cstrlen name1 % 65536) name1))) =
        (fun e => cacheEntryMatch e (cstrlen name1 % 65536) name1
        (hashFn (List.take (cstrlen name1 % 65536) name1))) := by
      funext e
      unfold cacheEntryMatch
      rw [hbytes]
    rw [hpred]

/-- C10 witness: a name with an embedded NUL behaves as its two-byte
prefix. -/
theorem claim_C10_identity_is_strlen_mod_65536_truncation_witness :
    QuicSessionServerCacheGetState (fun _ => 0) ⟨[], fun _ => 0⟩ [1, 2, 0, 9] =
      QuicSessionServerCacheGetState (fun _ => 0) ⟨[], fun _ => 0⟩ [1, 2] :=
  (claim_C10_identity_is_strlen_mod_65536_truncation (fun _ => 0) ⟨[], fun _ => 0⟩
    [1, 2, 0, 9] [1, 2] (by decide) (by decide)).1

/-! ## Claim about the membership registry and the draining guard -/

/-- The session invariant tied by registration and unregistration: the
membership collection has no duplicates, holds exactly the connections
whose back-reference points here, and the draining-guard count is the
session's own alive token plus one token per member. -/
def SessionInv (s : SessionMembers) : Prop :=
  s.connections.Nodup ∧
  (∀ c, c ∈ s.connections ↔ s.connSession c = true) ∧
  s.rundownCount = 1 + s.connections.length ∧
  s.rundownDraining = false

lemma unregister_step (s : SessionMembers) (c : Nat) (hI : SessionInv s)
    (hc : s.connSession c = true) :
    SessionInv (QuicSessionUnregisterConnection s c) ∧
    (QuicSessionUnregisterConnection s c).connections.length + 1 =
      s.connections.length := by
  obtain ⟨hnd, hmem, hcount, hdr⟩ := hI
  have hcmem : c ∈ s.connections := (hmem c).mpr hc
  have hpos : 0 < s.connections.length := List.length_pos_of_mem hcmem
  have hlen : (s.connections.erase c).length + 1 = s.connections.length := by
    rw [List.length_erase_of_mem hcmem]
    omega
  unfold QuicSessionUnregisterConnection
  rw [if_neg (by simp [hc])]
  refine ⟨⟨hnd.erase c, ?_, ?_, hdr⟩, hlen⟩
  · intro x
    show x ∈ s.connections.erase c ↔ (if x = c then false else s.connSession x) = true
    by_cases hxc : x = c
    · subst hxc
      simp [hnd.not_mem_erase]
    · rw [List.mem_erase_of_ne hxc, if_neg hxc]
      exact hmem x
  · show s.rundownCount - 1 = 1 + (s.connections.erase c).length
    omega

lemma register_step (s : SessionMembers) (c : Nat) (hI : SessionInv s)
    (hc : s.connSession c = false) :
    SessionInv (QuicSessionRegisterConnection s c) ∧
    (QuicSessionRegisterConnection s c).connections.length =
      s.connections.length + 1 := by
  obtain ⟨hnd, hmem, hcount, hdr⟩ := hI
  have hnotmem : c ∉ s.connections := by
    intro h
    rw [(hmem c).mp h] at hc
    cases hc
  unfold QuicSessionRegisterConnection QuicSessionUnregisterConnection
  rw [if_pos hc]
  refine ⟨⟨?_, ?_, ?_, hdr⟩, ?_⟩
  · show (s.connections ++ [c]).Nodup
    simp [List.nodup_append, hnd, hnotmem]
  · intro x
    show x ∈ s.connections ++ [c] ↔ (if x = c then true else s.connSession x) = true
    by_cases hxc : x = c
    · subst hxc
      simp
    · simp [hxc, hmem x]
  · show (if s.rundownDraining = true then s.rundownCount else s.rundownCount + 1) =
      1 + (s.connections ++ [c]).length
    rw [hdr, List.length_append]
    simp
    omega
  · show (s.connections ++ [c]).length = s.connections.length + 1
    rw [List.length_append]
    rfl

lemma applyOps_inv (ops : List SessionOp) (s : SessionMembers)
    (hI : SessionInv s) (hv : validOps s ops = true) :
    SessionInv (applyOps s ops) ∧
    (applyOps s ops).connections.length + unregCount ops =
      s.connections.length + regCount ops := by
  induction ops generalizing s with
  | nil => exact ⟨hI, rfl⟩
  | cons op rest ih =>
      cases op with
      | register c =>
          unfold validOps at hv
          simp only [Bool.and_eq_true, Bool.not_eq_eq_eq_not, Bool.not_true] at hv
          obtain ⟨hc, hrest⟩ := hv
          have hstep := register_step s c hI (by simpa using hc)
          obtain ⟨hI2, hlen2⟩ := ih (QuicSessionRegisterConnection s c) hstep.1
            (by exact hrest)
          refine ⟨hI2, ?_⟩
          show (applyOps (QuicSessionRegisterConnection s c) rest).connections.length +
            unregCount rest = s.connections.length + (regCount rest + 1)
          omega
      | unregister c =>
          unfold validOps at hv
          simp only [Bool.and_eq_true] at hv
          obtain ⟨hc, hrest⟩ := hv
          have hstep := unregister_step s c hI hc
          obtain ⟨hI2, hlen2⟩ := ih (QuicSessionUnregisterConnection s c) hstep.1
            (by exact hrest)
          refine ⟨hI2, ?_⟩
          show (applyOps (QuicSessionUnregisterConnection s c) rest).connections.length +
            (unregCount rest + 1) = s.connections.length + regCount rest
          omega

/-- C2: after any valid sequence of registrations and unregistrations on a
freshly created session (every registration targets a connection not
currently registered, every unregistration targets one that is), the
membership collection holds exactly the connections whose back-reference
points at the session, its size is the number of registrations minus the
number of unregistrations, and the draining-guard count is the session's
own alive token plus one token per currently-registered connection. -/
theorem claim_C2_membership_and_rundown_accounting (ops : List SessionOp)
    (hv : validOps initialSession ops = true) :
    (∀ c, c ∈ (applyOps initialSession ops).connections ↔
      (applyOps initialSession ops).connSession c = true) ∧
    (applyOps initialSession ops).connections.length + unregCount ops =
      regCount ops ∧
    (applyOps initialSession ops).rundownCount =
      1 + (applyOps initialSession ops).connections.length := by
  have hI0 : SessionInv initialSession := by
    refine ⟨List.nodup_nil, ?_, rfl, rfl⟩
    intro c
    show c ∈ ([] : List Nat) ↔ false = true
    simp
  obtain ⟨⟨hnd, hmem, hcount, hdr⟩, hlen⟩ := applyOps_inv ops initialSession hI0 hv
  refine ⟨hmem, ?_, hcount⟩
  simpa [initialSession] using hlen

/-- C2 witness: register connections 0 and 1, unregister 0; one member
remains and the counts agree. -/
theorem claim_C2_membership_and_rundown_accounting_witness :
    validOps initialSession
      [SessionOp.register 0, SessionOp.register 1, SessionOp.unregister 0] =
      true ∧
    (applyOps initialSession
      [SessionOp.register 0, SessionOp.register 1,
       SessionOp.unregister 0]).connections.length +
      unregCount
        [SessionOp.register 0, SessionOp.register 1, SessionOp.unregister 0] =
      regCount
        [SessionOp.register 0, SessionOp.register 1, SessionOp.unregister 0] := by
  refine ⟨by decide, ?_⟩
  exact (claim_C2_membership_and_rundown_accounting
    [SessionOp.register 0, SessionOp.register 1, SessionOp.unregister 0]
    (by decide)).2.1

end MsQuicSession
